import Mathlib

/-!
# diod: staged extended-attribute transactions (`diod/xattr.c`) and `_strdup_trim` (`utils/ctl.c`)

A shallow embedding of `xattr.c` as built with `HAVE_SYS_XATTR_H` on an LP64
platform (`int` is 32 bits, `size_t`, `ssize_t` and `off_t` are 64 bits), and
of `_strdup_trim` from `ctl.c`.

* Heap objects are lists of bytes; a `NULL` pointer is `none`.
* The xattr system calls and `malloc` are not code of the program: they are
  passed in as oracles (`Sys`, `Alloc`), so that every outcome they can have
  is covered.  `refSys` is a reference store following xattr(7).
* Assertions are compiled in (no `NDEBUG`).  `assert` failures, a `NULL`
  dereference, a `memcpy` that leaves its object and `err_exit` are reported
  as a `Fault`.
-/

namespace Diod

/-! ## Machine integers and memory -/

abbrev Byte := Nat

/-- Conversion of an integer value to `int` (32 bit two's complement). -/
def toInt32 (z : Int) : Int := (z + 2 ^ 31) % 2 ^ 32 - 2 ^ 31

/-- Conversion of an integer value to `ssize_t` (64 bit two's complement). -/
def toSSize (z : Int) : Int := (z + 2 ^ 63) % 2 ^ 64 - 2 ^ 63

/-- Conversion of an integer value to `size_t` / `u64` (64 bit unsigned). -/
def toSize (z : Int) : Nat := (z % 2 ^ 64).toNat

/-- Ways in which a call does not return to its caller in a defined state. -/
inductive Fault where
  | assertFailed
  | nullDeref
  | outOfBounds
  | exited
deriving DecidableEq, Repr

deriving instance DecidableEq for Except

/-- The `n` bytes at `mem + off` as `memcpy` reads them: `none` when the range
leaves the object (or the object is `NULL`).  A copy of zero bytes touches no
memory. -/
def readBytes (mem : Option (List Byte)) (off : Int) (n : Nat) : Option (List Byte) :=
  if n = 0 then some []
  else
    match mem with
    | none => none
    | some m =>
      if 0 ≤ off ∧ off + n ≤ m.length then some ((m.drop off.toNat).take n) else none

/-- The object `mem` after `memcpy (mem + off, src, n)`: `none` when the
destination range leaves the object or `src` has fewer than `n` bytes.  A copy
of zero bytes touches no memory. -/
def writeBytes (mem : Option (List Byte)) (off : Int) (src : List Byte) (n : Nat) :
    Option (Option (List Byte)) :=
  if n = 0 then some mem
  else
    match mem with
    | none => none
    | some m =>
      if 0 ≤ off ∧ off + n ≤ m.length ∧ n ≤ src.length then
        some (some (m.take off.toNat ++ src.take n ++ m.drop (off.toNat + n)))
      else none

/-! ## `struct xattr_struct` -/

def XATTR_FLAGS_GET : Nat := 1
def XATTR_FLAGS_SET : Nat := 2

def EINVAL : Nat := 22
def ENOMEM : Nat := 12

/-- The transaction record `struct xattr_struct`; `buf` is the heap object
`x->buf` points to (its length is the allocated size, `len` is the field). -/
structure Xattr where
  name : Option (List Byte)
  buf : Option (List Byte)
  len : Int
  flags : Nat
  setflags : Nat
deriving DecidableEq, Repr

/-- What `xattr_pwrite` returns, the error it passed to `np_uerror`, and the
transaction afterwards. -/
structure PwriteResult where
  ret : Int
  uerror : Option Nat
  x : Xattr
deriving DecidableEq, Repr

/-- What `xattr_pread` returns, the error it passed to `np_uerror`, the bytes it
copied to the caller, and the transaction afterwards. -/
structure PreadResult where
  ret : Int
  uerror : Option Nat
  data : List Byte
  x : Xattr
deriving DecidableEq, Repr

/-- The value of the local `len` of `xattr_pwrite` when it reaches `memcpy`:
`int len = count`, then `len = x->len - offset` (a 64 bit value stored to an
`int`) when `len > x->len - offset`, then `0` when negative. -/
def pwrite_len (x : Xattr) (count : Nat) (offset : Int) : Int :=
  let len : Int := toInt32 count
  let len : Int := if len > x.len - offset then toInt32 (x.len - offset) else len
  if len < 0 then 0 else len

/-- The function `xattr_pwrite (x, buf, count, offset)`. -/
def xattr_pwrite (x : Xattr) (buf : List Byte) (count : Nat) (offset : Int) :
    Except Fault PwriteResult :=
  if x.flags &&& XATTR_FLAGS_SET = 0 then
    .ok { ret := -1, uerror := some EINVAL, x := x }
  else
    let len := pwrite_len x count offset
    match writeBytes x.buf offset buf len.toNat with
    | none => .error .outOfBounds
    | some b => .ok { ret := len, uerror := none, x := { x with buf := b } }

/-- The value of the local `len` of `xattr_pread` when it reaches `memcpy`:
`int len = x->len - offset`, then `len = count` when `len > count`, a comparison
of an `int` with a `size_t` and hence made in `size_t`, then `0` when negative. -/
def pread_len (x : Xattr) (count : Nat) (offset : Int) : Int :=
  let len : Int := toInt32 (x.len - offset)
  let len : Int := if toSize len > count then toInt32 count else len
  if len < 0 then 0 else len

/-- The function `xattr_pread (x, buf, count, offset)`; `data` is what it copied
to the caller's `buf`. -/
def xattr_pread (x : Xattr) (count : Nat) (offset : Int) : Except Fault PreadResult :=
  if x.flags &&& XATTR_FLAGS_GET = 0 then
    .ok { ret := -1, uerror := some EINVAL, data := [], x := x }
  else
    let len := pread_len x count offset
    match readBytes x.buf offset len.toNat with
    | none => .error .outOfBounds
    | some d => .ok { ret := len, uerror := none, data := d, x := x }

/-! ## The collaborators: allocator and attribute store -/

abbrev Path := List Byte
abbrev Name := List Byte

/-- Outcome of the allocations a call makes.  `buf size` is `malloc (size)` for
the value buffer: `none` when it fails, else the indeterminate initial content
of the block, byte by byte. -/
structure Alloc where
  obj : Bool
  str : Bool
  buf : Nat → Option (Nat → Byte)

/-- A fresh block of `n` bytes with initial content `g`. -/
def fresh (g : Nat → Byte) (n : Nat) : List Byte := (List.range n).map g

/-- Result of an xattr system call: the return value, `errno` when it is
negative, and the bytes the call stored into the caller's buffer. -/
structure SysRet where
  ret : Int
  errno : Nat
  data : List Byte
deriving DecidableEq, Repr

/-- The xattr system calls over a world state `σ`.  A `NULL` name or value
pointer is `none`; the `Nat` after a buffer is the `size` argument. -/
structure Sys (σ : Type) where
  lgetxattr : σ → Path → Name → Nat → SysRet × σ
  llistxattr : σ → Path → Nat → SysRet × σ
  lsetxattr : σ → Path → Option Name → Option (List Byte) → Nat → Nat → SysRet × σ
  lremovexattr : σ → Path → Option Name → SysRet × σ

/-- The system calls a function made, in order. -/
inductive Call where
  | lgetxattr (path : Path) (name : Name) (size : Nat)
  | llistxattr (path : Path) (size : Nat)
  | lsetxattr (path : Path) (name : Option Name) (value : Option (List Byte)) (size : Nat)
      (flags : Nat)
  | lremovexattr (path : Path) (name : Option Name)
deriving DecidableEq, Repr

/-- The buffer `dst` after a system call stored `data` at its start. -/
def overwrite (dst data : List Byte) : List Byte :=
  data.take dst.length ++ dst.drop data.length

/-! ## Creating and destroying a transaction -/

/-- The part of `Fid` (fid.h) that xattr.c uses. -/
structure Fid where
  path : Path
  xattr : Option Xattr
deriving DecidableEq, Repr

/-- Modelled from the spec: `np_strdup` (libnpfs) is not under src/.  The
transaction keeps its `name` as a string: a NUL-terminated copy of the counted
string `Npstr`, which as a C string is the bytes before the first NUL. -/
def np_strdup (name : List Byte) : Name := name.takeWhile (fun c => c ≠ 0)

/-- The name a new transaction gets from the `Npstr` pointer handed to
`_xattr_create`: none for `NULL` or a zero `len`. -/
def txName (name : Option (List Byte)) : Option Name :=
  match name with
  | none => none
  | some n => if n.length > 0 then some (np_strdup n) else none

/-- The function `_xattr_destroy (&x)`: frees the record and stores `NULL`. -/
def _xattr_destroy (_x : Option Xattr) : Option Xattr := none

/-- The function `_xattr_create (name, size, flags, setflags)`; the second
component is the error passed to `np_uerror`. -/
def _xattr_create (al : Alloc) (name : Option (List Byte)) (size : Nat) (flags : Nat)
    (setflags : Nat) : Option Xattr × Option Nat :=
  if al.obj = false then (_xattr_destroy none, some ENOMEM)
  else
    let x : Xattr := { name := none, buf := none, len := 0, flags := flags, setflags := setflags }
    let named : Option Xattr :=
      match name with
      | none => some x
      | some n =>
        if n.length > 0 then
          (if al.str = false then none else some { x with name := some (np_strdup n) })
        else some x
    match named with
    | none => (_xattr_destroy (some x), some ENOMEM)
    | some x =>
      if size > 0 then
        match al.buf size with
        | none => (_xattr_destroy (some x), some ENOMEM)
        | some g => (some { x with buf := some (fresh g size), len := toSSize size }, none)
      else (some x, none)

/-- Result of `xattr_create`: return value, error passed to `np_uerror`, and the
fid afterwards. -/
structure CreateResult where
  ret : Int
  uerror : Option Nat
  f : Fid
deriving DecidableEq, Repr

/-- The function `xattr_create (fid, name, size, setflags)`. -/
def xattr_create (al : Alloc) (f : Fid) (name : Option (List Byte)) (size : Nat)
    (setflags : Nat) : Except Fault CreateResult :=
  if f.xattr.isSome then .error .assertFailed
  else
    match _xattr_create al name size XATTR_FLAGS_SET setflags with
    | (some x, e) => .ok { ret := 0, uerror := e, f := { f with xattr := some x } }
    | (none, e) => .ok { ret := -1, uerror := e, f := { f with xattr := _xattr_destroy none } }

/-- Result of `xattr_open`: return value, error passed to `np_uerror`, `*sizep`
when stored, the fid and the world afterwards, and the system calls made. -/
structure OpenResult (σ : Type) where
  ret : Int
  uerror : Option Nat
  size : Option Nat
  f : Fid
  w : σ
  calls : List Call
deriving DecidableEq, Repr

/-- Result of `_lgetxattr`. -/
structure GetResult (σ : Type) where
  ret : Int
  uerror : Option Nat
  x : Xattr
  w : σ
  calls : List Call
deriving DecidableEq, Repr

/-- The call `_lgetxattr` makes twice, `lgetxattr (path, x->name, buf, size)`
when the transaction has a name and `llistxattr (path, buf, size)` when not. -/
def getOrList {σ : Type} (sys : Sys σ) (w : σ) (path : Path) (name : Option Name)
    (size : Nat) : SysRet × σ :=
  match name with
  | some n => sys.lgetxattr w path n size
  | none => sys.llistxattr w path size

def getOrListCall (path : Path) (name : Option Name) (size : Nat) : Call :=
  match name with
  | some n => .lgetxattr path n size
  | none => .llistxattr path size

/-- The function `_lgetxattr (x, path)`: a size query, `malloc`, then the read;
the non-negative `ssize_t` length reaches `malloc` and the read as the same
number. -/
def _lgetxattr {σ : Type} (sys : Sys σ) (al : Alloc) (w : σ) (x : Xattr) (path : Path) :
    Except Fault (GetResult σ) :=
  let q := getOrList sys w path x.name 0
  let c1 := getOrListCall path x.name 0
  let len : Int := q.1.ret
  if len < 0 then
    .ok { ret := -1, uerror := some q.1.errno, x := x, w := q.2, calls := [c1] }
  else if x.buf.isSome then .error .assertFailed
  else
    match al.buf len.toNat with
    | none => .ok { ret := -1, uerror := some ENOMEM, x := x, w := q.2, calls := [c1] }
    | some g =>
      let b := fresh g len.toNat
      let r := getOrList sys q.2 path x.name len.toNat
      let c2 := getOrListCall path x.name len.toNat
      let x1 : Xattr := { x with buf := some (overwrite b r.1.data), len := r.1.ret }
      if x1.len < 0 then
        .ok { ret := -1, uerror := some r.1.errno, x := x1, w := r.2, calls := [c1, c2] }
      else .ok { ret := 0, uerror := none, x := x1, w := r.2, calls := [c1, c2] }

/-- The function `xattr_open (fid, name, sizep)`.  When `_xattr_create` returns
`NULL`, `_lgetxattr` dereferences it. -/
def xattr_open {σ : Type} (sys : Sys σ) (al : Alloc) (w : σ) (f : Fid)
    (name : Option (List Byte)) : Except Fault (OpenResult σ) :=
  if f.xattr.isSome then .error .assertFailed
  else
    match (_xattr_create al name 0 XATTR_FLAGS_GET 0).1 with
    | none => .error .nullDeref
    | some x =>
      match _lgetxattr sys al w x f.path with
      | .error e => .error e
      | .ok g =>
        if g.ret < 0 then
          .ok { ret := -1, uerror := g.uerror, size := none,
                f := { f with xattr := _xattr_destroy (some g.x) }, w := g.w, calls := g.calls }
        else
          .ok { ret := 0, uerror := g.uerror, size := some g.x.len.toNat,
                f := { f with xattr := some g.x }, w := g.w, calls := g.calls }

/-- Result of `xattr_close`. -/
structure CloseResult (σ : Type) where
  ret : Int
  uerror : Option Nat
  f : Fid
  w : σ
  calls : List Call
deriving DecidableEq, Repr

/-- The function `xattr_close (fid)`; the positive `ssize_t` length reaches
`lsetxattr` as the same number. -/
def xattr_close {σ : Type} (sys : Sys σ) (w : σ) (f : Fid) : CloseResult σ :=
  match f.xattr with
  | none => { ret := 0, uerror := none, f := f, w := w, calls := [] }
  | some x =>
    if x.flags &&& XATTR_FLAGS_SET ≠ 0 then
      if x.len > 0 then
        let r := sys.lsetxattr w f.path x.name x.buf x.len.toNat x.setflags
        { ret := if r.1.ret < 0 then -1 else 0,
          uerror := if r.1.ret < 0 then some r.1.errno else none,
          f := { f with xattr := _xattr_destroy (some x) }, w := r.2,
          calls := [.lsetxattr f.path x.name x.buf x.len.toNat x.setflags] }
      else if x.len = 0 then
        let r := sys.lremovexattr w f.path x.name
        { ret := if r.1.ret < 0 then -1 else 0,
          uerror := if r.1.ret < 0 then some r.1.errno else none,
          f := { f with xattr := _xattr_destroy (some x) }, w := r.2,
          calls := [.lremovexattr f.path x.name] }
      else
        { ret := 0, uerror := none, f := { f with xattr := _xattr_destroy (some x) }, w := w,
          calls := [] }
    else
      { ret := 0, uerror := none, f := { f with xattr := _xattr_destroy (some x) }, w := w,
        calls := [] }

/-! ## A reference attribute store, after xattr(7) -/

def EFAULT : Nat := 14
def ERANGE : Nat := 34
def E2BIG : Nat := 7
def EEXIST : Nat := 17
def ENODATA : Nat := 61
def XATTR_CREATE : Nat := 1
def XATTR_REPLACE : Nat := 2
def XATTR_NAME_MAX : Nat := 255
def XATTR_SIZE_MAX : Nat := 65536

/-- The attributes of all files: values keyed by path and attribute name. -/
abbrev Store := List ((Path × Name) × List Byte)

/-- The value the store holds for `name` on `path`, if any; there is no
attribute with an empty or over-long name. -/
def Store.getxattr (st : Store) (path : Path) (name : Name) : Option (List Byte) :=
  if name = [] ∨ name.length > XATTR_NAME_MAX then none
  else (st.find? (fun e => decide (e.1 = (path, name)))).map (fun e => e.2)

/-- The store without the attribute `name` of `path`. -/
def Store.erase (st : Store) (path : Path) (name : Name) : Store :=
  st.filter (fun e => decide (e.1 ≠ (path, name)))

/-- The listing `llistxattr` produces: each name of `path`, NUL-terminated. -/
def Store.names (st : Store) (path : Path) : List Byte :=
  ((st.filter (fun e => decide (e.1.1 = path))).map (fun e => e.1.2 ++ [0])).flatten

def sysErr (e : Nat) : SysRet := { ret := -1, errno := e, data := [] }

def refGet (value : List Byte) (size : Nat) : SysRet :=
  if size = 0 then { ret := value.length, errno := 0, data := [] }
  else if size < value.length then sysErr ERANGE
  else { ret := value.length, errno := 0, data := value }

/-- The reference store as system calls: names are non-empty and at most
`XATTR_NAME_MAX` bytes, values at most `XATTR_SIZE_MAX` bytes, `XATTR_CREATE`
and `XATTR_REPLACE` as in lsetxattr(2). -/
def refSys : Sys Store where
  lgetxattr := fun st path name size =>
    if name = [] ∨ name.length > XATTR_NAME_MAX then (sysErr ERANGE, st)
    else
      match st.getxattr path name with
      | none => (sysErr ENODATA, st)
      | some v => (refGet v size, st)
  llistxattr := fun st path size => (refGet (st.names path) size, st)
  lsetxattr := fun st path name value size flags =>
    match name with
    | none => (sysErr EFAULT, st)
    | some name =>
      if flags ≠ 0 ∧ flags ≠ XATTR_CREATE ∧ flags ≠ XATTR_REPLACE then (sysErr EINVAL, st)
      else if name = [] ∨ name.length > XATTR_NAME_MAX then (sysErr ERANGE, st)
      else if size > XATTR_SIZE_MAX then (sysErr E2BIG, st)
      else if (value.getD []).length < size then (sysErr EFAULT, st)
      else if flags = XATTR_CREATE ∧ (st.getxattr path name).isSome then (sysErr EEXIST, st)
      else if flags = XATTR_REPLACE ∧ (st.getxattr path name).isNone then (sysErr ENODATA, st)
      else
        ({ ret := 0, errno := 0, data := [] },
          ((path, name), (value.getD []).take size) :: st.erase path name)
  lremovexattr := fun st path name =>
    match name with
    | none => (sysErr EFAULT, st)
    | some name =>
      if name = [] ∨ name.length > XATTR_NAME_MAX then (sysErr ERANGE, st)
      else if (st.getxattr path name).isNone then (sysErr ENODATA, st)
      else ({ ret := 0, errno := 0, data := [] }, st.erase path name)

/-- The reference store shared with other processes: after each system call
the next state of `later`, if any, replaces the store. -/
def raceStep (w : Store × List Store) (st : Store) : Store × List Store :=
  match w.2 with
  | [] => (st, [])
  | s :: rest => (s, rest)

def raceSys : Sys (Store × List Store) where
  lgetxattr := fun w path name size =>
    let r := refSys.lgetxattr w.1 path name size
    (r.1, raceStep w r.2)
  llistxattr := fun w path size =>
    let r := refSys.llistxattr w.1 path size
    (r.1, raceStep w r.2)
  lsetxattr := fun w path name value size flags =>
    let r := refSys.lsetxattr w.1 path name value size flags
    (r.1, raceStep w r.2)
  lremovexattr := fun w path name =>
    let r := refSys.lremovexattr w.1 path name
    (r.1, raceStep w r.2)

/-! ## `_strdup_trim` (ctl.c) -/

/-- The test `isspace` in the C locale: space, `\t`, `\n`, `\v`, `\f`, `\r`. -/
def isspace (c : Byte) : Bool := c = 32 || (9 ≤ c && c ≤ 13)

/-- The function `strlen` on the bytes at `s`: the bytes before the first
NUL (the list ends where the terminator of the original string stood). -/
def strlen (s : List Byte) : Nat := (s.takeWhile (fun c => c != 0)).length

/-- The first loop of `_strdup_trim`, entered with `n = k - 1` and left at
once when `n < 0`: `if (!isspace (s[n])) break; s[n--] = '\0';`. -/
def trimTail (s : List Byte) : Nat → List Byte
  | 0 => s
  | k + 1 => if isspace (s.getD k 0) then trimTail (s.set k 0) k else s

/-- The function `_strdup_trim (s)` on the characters `s` of a string.  `dup`
tells whether `strdup` succeeds; when it fails the program leaves through
`err_exit`. -/
def _strdup_trim (dup : Bool) (s : List Byte) : Except Fault (Option (List Byte)) :=
  let n : Int := toInt32 ((strlen s : Int) - 1)
  let s1 := trimTail s (n + 1).toNat
  let s2 := s1.dropWhile (fun c => c != 0 && isspace c)
  if strlen s2 = 0 then .ok none
  else if dup then .ok (some (s2.takeWhile (fun c => c != 0)))
  else .error .exited

/-! ## Sample data -/

/-- An allocator that never fails and hands out blocks filled with byte `c`. -/
def allocFill (c : Byte) : Alloc := { obj := true, str := true, buf := fun _ => some (fun _ => c) }

def user_x : List Byte := [117, 115, 101, 114, 46, 120]
def hello : List Byte := [104, 101, 108, 108, 111]
def file : Path := [47, 97]

/-- A transaction in the state `xattr_create` / `xattr_open` leave it in: mode
`fl`, buffer `b`, `len` the length of `b`. -/
def mkXattr (fl : Nat) (b : List Byte) : Xattr :=
  { name := some user_x, buf := some b, len := b.length, flags := fl, setflags := 0 }

/-! ## `xattr_pwrite` and `xattr_pread` -/

/-- C1 (evaluation): on a SET buffer of length 5 the spec's examples hold,
`write (3, "abcdef")` stores 2 bytes and `write (10, "z")` stores none, but at
offset `2 ^ 32 + 4` the 64 bit difference `x->len - offset = 1 - 2 ^ 32` is
stored to the `int len` as `1`: the clamp to zero does not fire and `memcpy`
writes one byte `2 ^ 32 + 4` bytes past the start of the 5 byte buffer. -/
theorem xattr_pwrite_offset_truncated :
    xattr_pwrite (mkXattr XATTR_FLAGS_SET [0, 0, 0, 0, 0]) [97, 98, 99, 100, 101, 102] 6 3
        = .ok { ret := 2, uerror := none, x := mkXattr XATTR_FLAGS_SET [0, 0, 0, 97, 98] } ∧
      xattr_pwrite (mkXattr XATTR_FLAGS_SET [0, 0, 0, 0, 0]) [122] 1 10
        = .ok { ret := 0, uerror := none, x := mkXattr XATTR_FLAGS_SET [0, 0, 0, 0, 0] } ∧
      pwrite_len (mkXattr XATTR_FLAGS_SET [0, 0, 0, 0, 0]) 1 (2 ^ 32 + 4) = 1 ∧
      xattr_pwrite (mkXattr XATTR_FLAGS_SET [0, 0, 0, 0, 0]) [122] 1 (2 ^ 32 + 4)
        = .error .outOfBounds := by
  decide

/-- C2 (evaluation): on a GET buffer of length 5, a read of 4 bytes at offset 6
computes `len = -1`, the comparison `len > count` is made in `size_t` and
holds, so `len` becomes `count = 4` and `memcpy` reads 4 bytes past the end of
the buffer; reads at offsets 3 and 5 are as the claim says. -/
theorem xattr_pread_past_end :
    xattr_pread (mkXattr XATTR_FLAGS_GET [1, 2, 3, 4, 5]) 4 3
        = .ok { ret := 2, uerror := none, data := [4, 5],
                x := mkXattr XATTR_FLAGS_GET [1, 2, 3, 4, 5] } ∧
      xattr_pread (mkXattr XATTR_FLAGS_GET [1, 2, 3, 4, 5]) 4 5
        = .ok { ret := 0, uerror := none, data := [],
                x := mkXattr XATTR_FLAGS_GET [1, 2, 3, 4, 5] } ∧
      pread_len (mkXattr XATTR_FLAGS_GET [1, 2, 3, 4, 5]) 4 6 = 4 ∧
      xattr_pread (mkXattr XATTR_FLAGS_GET [1, 2, 3, 4, 5]) 4 6 = .error .outOfBounds := by
  decide

theorem pwrite_len_nonneg (x : Xattr) (count : Nat) (offset : Int) :
    0 ≤ pwrite_len x count offset := by
  unfold pwrite_len
  simp only []
  split_ifs <;> omega

theorem pread_len_nonneg (x : Xattr) (count : Nat) (offset : Int) :
    0 ≤ pread_len x count offset := by
  unfold pread_len
  simp only []
  split_ifs <;> omega

/-- C5: `xattr_pwrite` returns a negative value exactly when the transaction
lacks the SET flag, and then it returns -1 with `EINVAL` and leaves the
transaction as it was; likewise `xattr_pread` and the GET flag. -/
theorem mode_guard (x : Xattr) (buf : List Byte) (count : Nat) (offset : Int) :
    ((∃ r, xattr_pwrite x buf count offset = .ok r ∧ r.ret < 0) ↔
        x.flags &&& XATTR_FLAGS_SET = 0) ∧
      (x.flags &&& XATTR_FLAGS_SET = 0 →
        xattr_pwrite x buf count offset = .ok { ret := -1, uerror := some EINVAL, x := x }) ∧
      ((∃ r, xattr_pread x count offset = .ok r ∧ r.ret < 0) ↔
        x.flags &&& XATTR_FLAGS_GET = 0) ∧
      (x.flags &&& XATTR_FLAGS_GET = 0 →
        xattr_pread x count offset
          = .ok { ret := -1, uerror := some EINVAL, data := [], x := x }) := by
  refine ⟨⟨?_, ?_⟩, ?_, ⟨?_, ?_⟩, ?_⟩
  · rintro ⟨r, hr, hneg⟩
    by_contra hset
    have hlen := pwrite_len_nonneg x count offset
    unfold xattr_pwrite at hr
    rw [if_neg hset] at hr
    simp only [] at hr
    split at hr
    · exact Except.noConfusion hr
    · have hr := Except.ok.inj hr
      subst hr
      simp only at hneg
      omega
  · intro h
    refine ⟨{ ret := -1, uerror := some EINVAL, x := x }, ?_, ?_⟩
    · simp [xattr_pwrite, h]
    · simp
  · intro h
    simp [xattr_pwrite, h]
  · rintro ⟨r, hr, hneg⟩
    by_contra hget
    have hlen := pread_len_nonneg x count offset
    unfold xattr_pread at hr
    rw [if_neg hget] at hr
    simp only [] at hr
    split at hr
    · exact Except.noConfusion hr
    · have hr := Except.ok.inj hr
      subst hr
      simp only at hneg
      omega
  · intro h
    refine ⟨{ ret := -1, uerror := some EINVAL, data := [], x := x }, ?_, ?_⟩
    · simp [xattr_pread, h]
    · simp
  · intro h
    simp [xattr_pread, h]

/-- C5 at a GET transaction written to and a SET transaction read from. -/
theorem mode_guard_witness :
    xattr_pwrite (mkXattr XATTR_FLAGS_GET hello) [122] 1 0
        = .ok { ret := -1, uerror := some EINVAL, x := mkXattr XATTR_FLAGS_GET hello } ∧
      xattr_pread (mkXattr XATTR_FLAGS_SET hello) 1 0
        = .ok { ret := -1, uerror := some EINVAL, data := [],
                x := mkXattr XATTR_FLAGS_SET hello } :=
  ⟨(mode_guard (mkXattr XATTR_FLAGS_GET hello) [122] 1 0).2.1 (by decide),
    (mode_guard (mkXattr XATTR_FLAGS_SET hello) [122] 1 0).2.2.2 (by decide)⟩

/-! ## `xattr_close` -/

theorem close_none {σ : Type} (sys : Sys σ) (w : σ) (path : Path) :
    xattr_close sys w ⟨path, none⟩
      = { ret := 0, uerror := none, f := ⟨path, none⟩, w := w, calls := [] } := rfl

theorem close_get {σ : Type} (sys : Sys σ) (w : σ) (path : Path) (x : Xattr)
    (h : x.flags &&& XATTR_FLAGS_SET = 0) :
    xattr_close sys w ⟨path, some x⟩
      = { ret := 0, uerror := none, f := ⟨path, none⟩, w := w, calls := [] } := by
  simp only [xattr_close, _xattr_destroy]
  rw [if_neg (by simpa using h)]

theorem close_set_pos {σ : Type} (sys : Sys σ) (w : σ) (path : Path) (x : Xattr)
    (h : x.flags &&& XATTR_FLAGS_SET ≠ 0) (hpos : 0 < x.len) :
    xattr_close sys w ⟨path, some x⟩
      = { ret := if (sys.lsetxattr w path x.name x.buf x.len.toNat x.setflags).1.ret < 0
            then -1 else 0,
          uerror := if (sys.lsetxattr w path x.name x.buf x.len.toNat x.setflags).1.ret < 0
            then some (sys.lsetxattr w path x.name x.buf x.len.toNat x.setflags).1.errno
            else none,
          f := ⟨path, none⟩,
          w := (sys.lsetxattr w path x.name x.buf x.len.toNat x.setflags).2,
          calls := [.lsetxattr path x.name x.buf x.len.toNat x.setflags] } := by
  simp only [xattr_close, _xattr_destroy]
  rw [if_pos h, if_pos hpos]

theorem close_set_zero {σ : Type} (sys : Sys σ) (w : σ) (path : Path) (x : Xattr)
    (h : x.flags &&& XATTR_FLAGS_SET ≠ 0) (hzero : x.len = 0) :
    xattr_close sys w ⟨path, some x⟩
      = { ret := if (sys.lremovexattr w path x.name).1.ret < 0 then -1 else 0,
          uerror := if (sys.lremovexattr w path x.name).1.ret < 0
            then some (sys.lremovexattr w path x.name).1.errno else none,
          f := ⟨path, none⟩,
          w := (sys.lremovexattr w path x.name).2,
          calls := [.lremovexattr path x.name] } := by
  simp only [xattr_close, _xattr_destroy]
  rw [if_pos h, if_neg (by omega), if_pos hzero]

theorem close_set_neg {σ : Type} (sys : Sys σ) (w : σ) (path : Path) (x : Xattr)
    (h : x.flags &&& XATTR_FLAGS_SET ≠ 0) (hneg : x.len < 0) :
    xattr_close sys w ⟨path, some x⟩
      = { ret := 0, uerror := none, f := ⟨path, none⟩, w := w, calls := [] } := by
  simp only [xattr_close, _xattr_destroy]
  rw [if_pos h, if_neg (by omega), if_neg (by omega)]

/-- C6: `xattr_close` always leaves the fid without a transaction; it returns
0 or -1, and -1 exactly when the transaction had the SET flag and the store
call it made failed, `lsetxattr` for `len > 0` and `lremovexattr` for
`len = 0`; with no transaction or without the SET flag it returns 0, makes no
system call and leaves the world as it was. -/
theorem xattr_close_result {σ : Type} (sys : Sys σ) (w : σ) (f : Fid) :
    (xattr_close sys w f).f.xattr = none ∧
      ((xattr_close sys w f).ret = 0 ∨ (xattr_close sys w f).ret = -1) ∧
      ((xattr_close sys w f).ret = -1 ↔
        ∃ x, f.xattr = some x ∧ x.flags &&& XATTR_FLAGS_SET ≠ 0 ∧
          ((0 < x.len ∧
              (sys.lsetxattr w f.path x.name x.buf x.len.toNat x.setflags).1.ret < 0) ∨
            (x.len = 0 ∧ (sys.lremovexattr w f.path x.name).1.ret < 0))) ∧
      (∀ x, f.xattr = some x → x.flags &&& XATTR_FLAGS_SET ≠ 0 →
        (0 < x.len →
          (xattr_close sys w f).calls
              = [.lsetxattr f.path x.name x.buf x.len.toNat x.setflags] ∧
            (xattr_close sys w f).w
              = (sys.lsetxattr w f.path x.name x.buf x.len.toNat x.setflags).2) ∧
        (x.len = 0 →
          (xattr_close sys w f).calls = [.lremovexattr f.path x.name] ∧
            (xattr_close sys w f).w = (sys.lremovexattr w f.path x.name).2)) ∧
      ((f.xattr = none ∨ ∃ x, f.xattr = some x ∧ x.flags &&& XATTR_FLAGS_SET = 0) →
        (xattr_close sys w f).ret = 0 ∧ (xattr_close sys w f).w = w ∧
          (xattr_close sys w f).calls = []) := by
  obtain ⟨path, xa⟩ := f
  cases xa with
  | none => simp [close_none]
  | some x =>
    by_cases hset : x.flags &&& XATTR_FLAGS_SET = 0
    · simp [close_get sys w path x hset, hset]
    · rcases lt_trichotomy x.len 0 with hneg | hzero | hpos
      · rw [close_set_neg sys w path x hset hneg]
        have h1 : ¬ 0 < x.len := by omega
        have h2 : x.len ≠ 0 := by omega
        simp [hset, h1, h2]
        omega
      · rw [close_set_zero sys w path x hset hzero]
        by_cases hr : (sys.lremovexattr w path x.name).1.ret < 0
        · simp [hset, hzero, hr]
        · simp [hset, hzero, hr]
      · rw [close_set_pos sys w path x hset hpos]
        have h2 : x.len ≠ 0 := by omega
        by_cases hr : (sys.lsetxattr w path x.name x.buf x.len.toNat x.setflags).1.ret < 0
        · simp [hset, hpos, h2, hr]
        · simp [hset, hpos, h2, hr]

/-- C6 at a GET transaction: closing returns 0 and leaves the store alone. -/
theorem xattr_close_result_witness :
    (xattr_close refSys [((file, user_x), hello)]
        ⟨file, some (mkXattr XATTR_FLAGS_GET hello)⟩).ret = 0 ∧
      (xattr_close refSys [((file, user_x), hello)]
        ⟨file, some (mkXattr XATTR_FLAGS_GET hello)⟩).w = [((file, user_x), hello)] ∧
      (xattr_close refSys [((file, user_x), hello)]
        ⟨file, some (mkXattr XATTR_FLAGS_GET hello)⟩).calls = [] :=
  (xattr_close_result refSys [((file, user_x), hello)]
    ⟨file, some (mkXattr XATTR_FLAGS_GET hello)⟩).2.2.2.2
    (Or.inr ⟨mkXattr XATTR_FLAGS_GET hello, rfl, by decide⟩)

/-! ## Creating a transaction and committing it -/

theorem _xattr_create_ok (al : Alloc) (name : Option (List Byte)) (size flags setflags : Nat)
    (g : Nat → Byte) (hobj : al.obj = true) (hstr : al.str = true)
    (hbuf : 0 < size → al.buf size = some g) :
    _xattr_create al name size flags setflags
      = (some { name := txName name,
                buf := if 0 < size then some (fresh g size) else none,
                len := if 0 < size then toSSize size else 0,
                flags := flags, setflags := setflags }, none) := by
  unfold _xattr_create
  have hnamed :
      (match name with
        | none => some ({ name := none, buf := none, len := 0, flags := flags,
                          setflags := setflags } : Xattr)
        | some n =>
          if n.length > 0 then
            (if al.str = false then none
              else some { name := some (np_strdup n), buf := none, len := 0, flags := flags,
                          setflags := setflags })
          else some { name := none, buf := none, len := 0, flags := flags,
                      setflags := setflags })
        = some { name := txName name, buf := none, len := 0, flags := flags,
                 setflags := setflags } := by
    cases name with
    | none => rfl
    | some n =>
      by_cases hn : n.length > 0
      · simp [txName, hn, hstr]
      · simp [txName, hn]
  simp only [hobj, Bool.true_eq_false, if_false, hnamed]
  by_cases hs : 0 < size
  · simp [hs, hbuf hs]
  · simp [hs]

theorem getxattr_erase (st : Store) (path : Path) (name : Name) :
    (st.erase path name).getxattr path name = none := by
  unfold Store.getxattr Store.erase
  split_ifs
  · rfl
  · rw [Option.map_eq_none', List.find?_eq_none]
    intro e he
    have := (List.mem_filter.mp he).2
    simpa using this

theorem getxattr_cons_self (st : Store) (path : Path) (name : Name) (v : List Byte)
    (hne : name ≠ []) (hlen : ¬ name.length > XATTR_NAME_MAX) :
    Store.getxattr (((path, name), v) :: st) path name = some v := by
  unfold Store.getxattr
  rw [if_neg (by tauto)]
  simp

/-- C3: when its allocations succeed, `xattr_create` with size 0 on a fid
without a transaction returns 0, and the `xattr_close` that follows makes the
single system call `lremovexattr (path, name)`, whatever the store; on the
reference store no attribute is then held under that name, whether or not one
was before.  In no state does `xattr_close` call `lsetxattr` with size 0. -/
theorem zero_length_commit_deletes (al : Alloc) (path : Path) (name : List Byte)
    (setflags : Nat) (hobj : al.obj = true) (hstr : al.str = true) :
    ∃ c, xattr_create al ⟨path, none⟩ (some name) 0 setflags = .ok c ∧ c.ret = 0 ∧
      (∀ (σ : Type) (sys : Sys σ) (w : σ),
        (xattr_close sys w c.f).calls = [.lremovexattr path (txName (some name))]) ∧
      (∀ st : Store, ((xattr_close refSys st c.f).w).getxattr path (np_strdup name) = none) ∧
      (∀ (σ : Type) (sys : Sys σ) (w : σ) (f : Fid) (p : Path) (n : Option Name)
          (v : Option (List Byte)) (s fl : Nat),
        Call.lsetxattr p n v s fl ∈ (xattr_close sys w f).calls → 0 < s) := by
  have hx := _xattr_create_ok al (some name) 0 XATTR_FLAGS_SET setflags (fun _ => 0) hobj hstr
    (by intro h; omega)
  simp only [lt_irrefl, if_false] at hx
  have hfl : ({ name := txName (some name), buf := none, len := 0, flags := XATTR_FLAGS_SET,
                setflags := setflags } : Xattr).flags &&& XATTR_FLAGS_SET ≠ 0 := by
    show XATTR_FLAGS_SET &&& XATTR_FLAGS_SET ≠ 0
    decide
  refine ⟨{ ret := 0, uerror := none,
            f := ⟨path, some { name := txName (some name), buf := none, len := 0,
                               flags := XATTR_FLAGS_SET, setflags := setflags }⟩ }, ?_, rfl,
    ?_, ?_, ?_⟩
  · simp [xattr_create, hx]
  · intro σ sys w
    rw [close_set_zero sys w path _ hfl rfl]
  · intro st
    rw [close_set_zero refSys st path _ hfl rfl]
    simp only [txName]
    by_cases hn : name.length > 0
    · simp only [hn, if_true, refSys]
      split_ifs with h1 h2
      · unfold Store.getxattr
        rw [if_pos h1]
      · simpa using h2
      · exact getxattr_erase st path (np_strdup name)
    · have : name = [] := by
        cases name with
        | nil => rfl
        | cons a t => simp at hn
      subst this
      simp [refSys, np_strdup, Store.getxattr]
  · intro σ sys w f p n v s fl hmem
    obtain ⟨path, xa⟩ := f
    cases xa with
    | none => simp [close_none] at hmem
    | some x =>
      by_cases hset : x.flags &&& XATTR_FLAGS_SET = 0
      · simp [close_get sys w path x hset] at hmem
      · rcases lt_trichotomy x.len 0 with hneg | hzero | hpos
        · simp [close_set_neg sys w path x hset hneg] at hmem
        · simp [close_set_zero sys w path x hset hzero] at hmem
        · simp only [close_set_pos sys w path x hset hpos, List.mem_singleton] at hmem
          injection hmem with _ _ _ hs _
          subst hs
          omega

/-- C3 on a file that holds `user.x = "hello"`: after create with size 0 and
close the reference store holds nothing under `user.x`. -/
theorem zero_length_commit_deletes_witness :
    ∃ c, xattr_create (allocFill 0) ⟨file, none⟩ (some user_x) 0 0 = .ok c ∧ c.ret = 0 ∧
      ((xattr_close refSys [((file, user_x), hello)] c.f).w).getxattr file user_x = none := by
  obtain ⟨c, hc, hret, _, hst, _⟩ :=
    zero_length_commit_deletes (allocFill 0) file user_x 0 rfl rfl
  exact ⟨c, hc, hret, hst [((file, user_x), hello)]⟩

/-! ## Preconditions and results of `xattr_create` and `xattr_open` -/

/-- C7 (counterexample): on a fid that already has a GET transaction open,
neither `xattr_create` nor `xattr_open` returns an error result with the fid
unchanged: both stop at their failed `assert (f->xattr == NULL)`. -/
theorem second_transaction_no_error_result :
    xattr_create (allocFill 0) ⟨file, some (mkXattr XATTR_FLAGS_GET hello)⟩ (some user_x) 5 0
        = .error .assertFailed ∧
      xattr_open refSys (allocFill 0) [((file, user_x), hello)]
          ⟨file, some (mkXattr XATTR_FLAGS_GET hello)⟩ (some user_x)
        = .error .assertFailed ∧
      (¬ ∃ r, xattr_create (allocFill 0) ⟨file, some (mkXattr XATTR_FLAGS_GET hello)⟩
          (some user_x) 5 0 = .ok r ∧ r.ret = -1 ∧
          r.f = ⟨file, some (mkXattr XATTR_FLAGS_GET hello)⟩) ∧
      ¬ ∃ r, xattr_open refSys (allocFill 0) [((file, user_x), hello)]
          ⟨file, some (mkXattr XATTR_FLAGS_GET hello)⟩ (some user_x) = .ok r ∧ r.ret = -1 ∧
          r.f = ⟨file, some (mkXattr XATTR_FLAGS_GET hello)⟩ := by
  refine ⟨rfl, rfl, ?_, ?_⟩
  · rintro ⟨r, hr, _⟩
    exact Except.noConfusion hr
  · rintro ⟨r, hr, _⟩
    exact Except.noConfusion hr

/-- C7 (amended): whenever the fid already has a transaction, `xattr_create`
and `xattr_open` fail their assertion `f->xattr == NULL` instead of returning,
for every allocator, store, name, size and flags. -/
theorem second_transaction_asserts {σ : Type} (sys : Sys σ) (al : Alloc) (w : σ) (f : Fid)
    (name : Option (List Byte)) (size setflags : Nat) (h : f.xattr.isSome = true) :
    xattr_create al f name size setflags = .error .assertFailed ∧
      xattr_open sys al w f name = .error .assertFailed := by
  simp [xattr_create, xattr_open, h]

/-- C7 (amended) at a fid holding a SET transaction. -/
theorem second_transaction_asserts_witness :
    xattr_create (allocFill 0) ⟨file, some (mkXattr XATTR_FLAGS_SET hello)⟩ none 3 0
        = .error .assertFailed ∧
      xattr_open refSys (allocFill 0) [] ⟨file, some (mkXattr XATTR_FLAGS_SET hello)⟩ none
        = .error .assertFailed :=
  second_transaction_asserts refSys (allocFill 0) [] ⟨file, some (mkXattr XATTR_FLAGS_SET hello)⟩
    none 3 0 rfl

/-- C8 (counterexample): with an allocator whose blocks come filled with the
byte 170, `xattr_create` with size 1 succeeds and the staged buffer is the one
byte 170, not a zero byte: the buffer comes from `malloc` and is not cleared. -/
theorem xattr_create_buffer_not_zero :
    xattr_create (allocFill 170) ⟨file, none⟩ (some user_x) 1 0
        = .ok { ret := 0, uerror := none,
                f := ⟨file, some { name := some user_x, buf := some [170], len := 1,
                                   flags := XATTR_FLAGS_SET, setflags := 0 }⟩ } ∧
      ([170] : List Byte) ≠ List.replicate 1 0 := by
  decide

/-- C8 (amended): when its allocations succeed, `xattr_create` with size
`n < 2 ^ 63` returns 0 and leaves a SET transaction with `len = n` whose buffer
is the `n` bytes `malloc` handed out, with their initial content `g`
untouched; closing right away hands exactly these bytes to `lsetxattr`. -/
theorem xattr_create_buffer (al : Alloc) (path : Path) (name : Option (List Byte))
    (n setflags : Nat) (g : Nat → Byte) (hobj : al.obj = true) (hstr : al.str = true)
    (hbuf : al.buf n = some g) (hn : n < 2 ^ 63) :
    ∃ x, xattr_create al ⟨path, none⟩ name n setflags
          = .ok { ret := 0, uerror := none, f := ⟨path, some x⟩ } ∧
      x.flags = XATTR_FLAGS_SET ∧ x.len = n ∧ x.buf.getD [] = fresh g n ∧
      (x.buf.getD []).length = n ∧
      (∀ i, i < n → (x.buf.getD []).getD i 0 = g i) ∧
      (0 < n → ∀ (σ : Type) (sys : Sys σ) (w : σ),
        (xattr_close sys w ⟨path, some x⟩).calls
          = [.lsetxattr path (txName name) (some (fresh g n)) n setflags]) := by
  have hx := _xattr_create_ok al name n XATTR_FLAGS_SET setflags g hobj hstr (fun _ => hbuf)
  have hss : toSSize (n : Int) = n := by
    unfold toSSize
    omega
  have hlen : (fresh g n).length = n := by simp [fresh]
  by_cases hpos : 0 < n
  · simp only [hpos, if_true, hss] at hx
    refine ⟨{ name := txName name, buf := some (fresh g n), len := n, flags := XATTR_FLAGS_SET,
              setflags := setflags }, by simp [xattr_create, hx], rfl, rfl, rfl, hlen, ?_, ?_⟩
    · intro i hi
      simp [fresh, List.getD, hi]
    · intro _ σ sys w
      rw [close_set_pos sys w path _ (by show XATTR_FLAGS_SET &&& XATTR_FLAGS_SET ≠ 0; decide)
        (by simpa using hpos)]
      simp
  · have hn0 : n = 0 := by omega
    subst hn0
    simp only [lt_irrefl, if_false] at hx
    refine ⟨{ name := txName name, buf := none, len := 0, flags := XATTR_FLAGS_SET,
              setflags := setflags }, by simp [xattr_create, hx], rfl, rfl, rfl, rfl, ?_, ?_⟩
    · intro i hi
      omega
    · intro h
      omega

/-- C8 (amended) with size 5 and blocks filled with the byte 170. -/
theorem xattr_create_buffer_witness :
    ∃ x, xattr_create (allocFill 170) ⟨file, none⟩ (some user_x) 5 0
          = .ok { ret := 0, uerror := none, f := ⟨file, some x⟩ } ∧
      x.len = 5 ∧ x.buf.getD [] = [170, 170, 170, 170, 170] := by
  obtain ⟨x, hx, _, hlen, hb, _⟩ :=
    xattr_create_buffer (allocFill 170) file (some user_x) 5 0 (fun _ => 170) rfl rfl rfl
      (by norm_num)
  exact ⟨x, hx, hlen, hb⟩

theorem overwrite_length (dst data : List Byte) : (overwrite dst data).length = dst.length := by
  simp only [overwrite, List.length_append, List.length_take, List.length_drop]
  omega

/-- C9 (counterexample): the file holds `user.x = "hello"` and another process
replaces the value by three bytes right after the size query.  The size query
returns 5, the read returns 3, and `xattr_open` returns 0 with `*sizep = 3`:
the shorter value is accepted, in a 5 byte buffer whose last two bytes are
what `malloc` left there. -/
theorem xattr_open_shrink_succeeds :
    (getOrList raceSys ([((file, user_x), hello)], [[((file, user_x), [1, 2, 3])]]) file
        (some user_x) 0).1.ret = 5 ∧
      xattr_open raceSys (allocFill 170)
          ([((file, user_x), hello)], [[((file, user_x), [1, 2, 3])]]) ⟨file, none⟩
          (some user_x)
        = .ok { ret := 0, uerror := none, size := some 3,
                f := ⟨file, some { name := some user_x, buf := some [1, 2, 3, 170, 170],
                                   len := 3, flags := XATTR_FLAGS_GET, setflags := 0 }⟩,
                w := ([((file, user_x), [1, 2, 3])], []),
                calls := [.lgetxattr file user_x 0, .lgetxattr file user_x 5] } :=
  ⟨rfl, rfl⟩

/-- C9 (amended): when the record and the name are allocated, `xattr_open` on
a fid without a transaction returns 0 or -1.  It returns 0 exactly when the
size query returns a length `q >= 0`, `malloc (q)` succeeds and the read
returns `v >= 0`; then `*sizep` and the transaction's `len` are `v`, the
return value of the read, and the buffer has the `q` bytes of the size query.
When it returns -1 the fid is left without a transaction. -/
theorem xattr_open_result {σ : Type} (sys : Sys σ) (al : Alloc) (w : σ) (path : Path)
    (name : Option (List Byte)) (hobj : al.obj = true) (hstr : al.str = true) :
    ∃ r, xattr_open sys al w ⟨path, none⟩ name = .ok r ∧ (r.ret = 0 ∨ r.ret = -1) ∧
      (r.ret = 0 ↔
        0 ≤ (getOrList sys w path (txName name) 0).1.ret ∧
          (al.buf (getOrList sys w path (txName name) 0).1.ret.toNat).isSome = true ∧
          0 ≤ (getOrList sys (getOrList sys w path (txName name) 0).2 path (txName name)
                (getOrList sys w path (txName name) 0).1.ret.toNat).1.ret) ∧
      (r.ret = 0 →
        ∃ x, r.f.xattr = some x ∧
          x.len = (getOrList sys (getOrList sys w path (txName name) 0).2 path (txName name)
                    (getOrList sys w path (txName name) 0).1.ret.toNat).1.ret ∧
          r.size = some x.len.toNat ∧
          (x.buf.getD []).length = (getOrList sys w path (txName name) 0).1.ret.toNat) ∧
      (r.ret = -1 → r.f.xattr = none) := by
  have hx := _xattr_create_ok al name 0 XATTR_FLAGS_GET 0 (fun _ => 0) hobj hstr
    (by intro h; omega)
  simp only [lt_irrefl, if_false] at hx
  simp only [xattr_open, hx, _lgetxattr, Option.isSome_none, Bool.false_eq_true, if_false,
    _xattr_destroy]
  generalize getOrList sys w path (txName name) 0 = q
  by_cases hq : q.1.ret < 0
  · simp only [hq, if_true]
    refine ⟨_, rfl, ?_⟩
    simp
    omega
  · simp only [hq, if_false]
    cases hb : al.buf q.1.ret.toNat with
    | none =>
      simp only []
      refine ⟨_, rfl, ?_⟩
      simp
    | some g =>
      simp only []
      generalize getOrList sys q.2 path (txName name) q.1.ret.toNat = v
      by_cases hv : v.1.ret < 0
      · simp only [hv, if_true]
        refine ⟨_, rfl, ?_⟩
        simp
        omega
      · simp only [hv, if_false]
        refine ⟨_, rfl, ?_⟩
        simp [overwrite_length, fresh]
        omega

/-- C9 (amended) on the reference store: opening `user.x = "hello"` returns 0
with size 5. -/
theorem xattr_open_result_witness :
    ∃ r, xattr_open refSys (allocFill 0) [((file, user_x), hello)] ⟨file, none⟩ (some user_x)
          = .ok r ∧ r.ret = 0 ∧ r.size = some 5 := by
  obtain ⟨r, hr, _, hiff, hsucc, _⟩ :=
    xattr_open_result refSys (allocFill 0) [((file, user_x), hello)] file (some user_x) rfl rfl
  have h0 : r.ret = 0 := hiff.mpr ⟨by decide, rfl, by decide⟩
  obtain ⟨x, _, hlen, hsize, _⟩ := hsucc h0
  rw [hlen] at hsize
  exact ⟨r, hr, h0, hsize⟩

/-! ## `xattr_pwrite` and `xattr_pread` within the range of `int` -/

/-- Within the range of `int`, that is for fewer than `2 ^ 31` bytes of data
and an offset below `L + 2 ^ 31`, `xattr_pwrite` on a SET transaction with a
buffer of `L` bytes returns `n = min c (L - offset)`, zero when `offset >= L`,
and replaces bytes `[offset, offset + n)` by the first `n` bytes of the data,
leaving `len`, the length and every other byte as they were. -/
theorem xattr_pwrite_in_range (x : Xattr) (b data : List Byte) (offset : Nat)
    (hset : x.flags &&& XATTR_FLAGS_SET ≠ 0) (hbuf : x.buf = some b) (hlen : x.len = b.length)
    (hc : data.length < 2 ^ 31) (hoff : offset < b.length + 2 ^ 31) :
    xattr_pwrite x data data.length offset
      = .ok { ret := (min data.length (b.length - offset) : Nat), uerror := none,
              x := { x with buf := some (b.take offset
                        ++ data.take (min data.length (b.length - offset))
                        ++ b.drop (offset + min data.length (b.length - offset))) } } := by
  have hl : pwrite_len x data.length offset = (min data.length (b.length - offset) : Nat) := by
    unfold pwrite_len toInt32
    rw [hlen]
    simp only []
    split_ifs <;> omega
  unfold xattr_pwrite
  rw [if_neg hset]
  simp only [hl, Int.toNat_ofNat, hbuf]
  unfold writeBytes
  by_cases hn : min data.length (b.length - offset) = 0
  · simp [hn]
  · rw [if_neg hn]
    simp only []
    rw [if_pos (by omega)]
    simp

/-- Within the range of `int`, that is for `count < 2 ^ 31`, a buffer of
`L < 2 ^ 31` bytes and `offset <= L`, `xattr_pread` on a GET transaction
returns the `n = min count (L - offset)` bytes `buffer[offset .. offset + n)`. -/
theorem xattr_pread_in_range (x : Xattr) (b : List Byte) (count offset : Nat)
    (hget : x.flags &&& XATTR_FLAGS_GET ≠ 0) (hbuf : x.buf = some b) (hlen : x.len = b.length)
    (hc : count < 2 ^ 31) (hL : b.length < 2 ^ 31) (hoff : offset ≤ b.length) :
    xattr_pread x count offset
      = .ok { ret := (min count (b.length - offset) : Nat), uerror := none,
              data := (b.drop offset).take (min count (b.length - offset)), x := x } := by
  have hl : pread_len x count offset = (min count (b.length - offset) : Nat) := by
    unfold pread_len toInt32 toSize
    rw [hlen]
    simp only []
    split_ifs <;> omega
  unfold xattr_pread
  rw [if_neg hget]
  simp only [hl, Int.toNat_ofNat, hbuf]
  unfold readBytes
  by_cases hn : min count (b.length - offset) = 0
  · simp [hn]
  · rw [if_neg hn]
    simp only []
    rw [if_pos (by omega)]
    simp

/-! ## Set, then get -/

theorem fresh_length (g : Nat → Byte) (n : Nat) : (fresh g n).length = n := by
  simp [fresh]

/-- What the reference store does when it accepts `lsetxattr`. -/
theorem refSys_lsetxattr_accepts (st : Store) (path : Path) (nm : Name) (v : List Byte)
    (flags : Nat) (hacc : (refSys.lsetxattr st path (some nm) (some v) v.length flags).1.ret = 0) :
    nm ≠ [] ∧ ¬ nm.length > XATTR_NAME_MAX ∧ v.length ≤ XATTR_SIZE_MAX ∧
      (refSys.lsetxattr st path (some nm) (some v) v.length flags).2
        = ((path, nm), v) :: st.erase path nm := by
  simp only [refSys, Option.getD_some, lt_irrefl, if_false, List.take_length] at hacc ⊢
  split_ifs at hacc ⊢ with h1 h2 h3 h4 h5
  all_goals first
    | (exfalso; revert hacc; simp [sysErr]; done)
    | skip
  refine ⟨?_, ?_, ?_, rfl⟩
  · tauto
  · tauto
  · omega

/-- C4: for every non-empty name and every value `v` of length `n > 0` that
the reference store accepts under that name, and allocations that succeed:
`xattr_create (n)` returns 0, `xattr_pwrite (0, v)` returns `n`, `xattr_close`
returns 0 and leaves the store holding exactly `v` under the name; then
`xattr_open` on a second fid returns 0 with size `n`, and `xattr_pread (0, n)`
returns `n` and the bytes `v`. -/
theorem set_get_round_trip (al al2 : Alloc) (st : Store) (path : Path) (name v : List Byte)
    (setflags : Nat) (g g2 : Nat → Byte) (hname : name ≠ []) (hv : 0 < v.length)
    (hobj : al.obj = true) (hstr : al.str = true) (hbuf : al.buf v.length = some g)
    (hobj2 : al2.obj = true) (hstr2 : al2.str = true) (hbuf2 : al2.buf v.length = some g2)
    (hacc : (refSys.lsetxattr st path (some (np_strdup name)) (some v) v.length setflags).1.ret
      = 0) :
    ∃ x p, xattr_create al ⟨path, none⟩ (some name) v.length setflags
          = .ok { ret := 0, uerror := none, f := ⟨path, some x⟩ } ∧
      xattr_pwrite x v v.length 0 = .ok p ∧ p.ret = v.length ∧
      (xattr_close refSys st ⟨path, some p.x⟩).ret = 0 ∧
      ((xattr_close refSys st ⟨path, some p.x⟩).w).getxattr path (np_strdup name) = some v ∧
      ∃ o y r, xattr_open refSys al2 (xattr_close refSys st ⟨path, some p.x⟩).w ⟨path, none⟩
            (some name) = .ok o ∧
        o.ret = 0 ∧ o.size = some v.length ∧ o.f.xattr = some y ∧
        xattr_pread y v.length 0 = .ok r ∧ r.ret = v.length ∧ r.data = v := by
  obtain ⟨hnm, hnl, hsz, hst⟩ := refSys_lsetxattr_accepts st path (np_strdup name) v setflags hacc
  have hsz' : v.length ≤ 65536 := by
    unfold XATTR_SIZE_MAX at hsz
    exact hsz
  have hnpos : name.length > 0 := List.length_pos.mpr hname
  have htx : txName (some name) = some (np_strdup name) := by simp [txName, hnpos]
  have hss : toSSize (v.length : Int) = v.length := by
    unfold toSSize
    omega
  -- create
  have hx := _xattr_create_ok al (some name) v.length XATTR_FLAGS_SET setflags g hobj hstr
    (fun _ => hbuf)
  simp only [hv, if_true, hss, htx] at hx
  have hfl : XATTR_FLAGS_SET &&& XATTR_FLAGS_SET ≠ 0 := by decide
  -- write
  have hw := xattr_pwrite_in_range
    { name := some (np_strdup name), buf := some (fresh g v.length), len := v.length,
      flags := XATTR_FLAGS_SET, setflags := setflags } (fresh g v.length) v 0 hfl rfl
    (by simp [fresh_length]) (by omega) (by omega)
  simp only [fresh_length, Nat.sub_zero, min_self, List.take_zero, List.nil_append,
    List.take_length, Nat.zero_add, Nat.cast_zero] at hw
  rw [List.drop_of_length_le (by simp [fresh_length]), List.append_nil] at hw
  refine ⟨_, _, by simp [xattr_create, hx], hw, rfl, ?_⟩
  -- close
  have hcl := close_set_pos refSys st path
    { name := some (np_strdup name), buf := some v, len := v.length,
      flags := XATTR_FLAGS_SET, setflags := setflags } hfl (by simpa using hv)
  simp only [Int.toNat_ofNat] at hcl
  simp only [hcl, hacc, hst]
  have hget : Store.getxattr (((path, np_strdup name), v) :: st.erase path (np_strdup name))
      path (np_strdup name) = some v := getxattr_cons_self _ path _ v hnm hnl
  refine ⟨by simp, hget, ?_⟩
  -- open
  have hx2 := _xattr_create_ok al2 (some name) 0 XATTR_FLAGS_GET 0 (fun _ => 0) hobj2 hstr2
    (by intro h; omega)
  simp only [lt_irrefl, if_false, htx] at hx2
  have hq : ∀ size, refSys.lgetxattr
      (((path, np_strdup name), v) :: st.erase path (np_strdup name)) path (np_strdup name) size
      = (refGet v size, ((path, np_strdup name), v) :: st.erase path (np_strdup name)) := by
    intro size
    simp only [refSys]
    rw [if_neg (not_or.mpr ⟨hnm, hnl⟩), hget]
  have hr0 : refGet v 0 = { ret := v.length, errno := 0, data := [] } := by simp [refGet]
  have hrn : refGet v v.length = { ret := v.length, errno := 0, data := v } := by
    unfold refGet
    rw [if_neg (by omega), if_neg (by omega)]
  have hov : overwrite (fresh g2 v.length) v = v := by
    unfold overwrite
    rw [fresh_length, List.take_length, List.drop_of_length_le (by simp [fresh_length]),
      List.append_nil]
  have hopen : xattr_open refSys al2
      (((path, np_strdup name), v) :: st.erase path (np_strdup name)) ⟨path, none⟩ (some name)
      = .ok { ret := 0, uerror := none, size := some v.length,
              f := ⟨path, some { name := some (np_strdup name), buf := some v, len := v.length,
                                 flags := XATTR_FLAGS_GET, setflags := 0 }⟩,
              w := ((path, np_strdup name), v) :: st.erase path (np_strdup name),
              calls := [.lgetxattr path (np_strdup name) 0,
                        .lgetxattr path (np_strdup name) v.length] } := by
    have hnn : ¬ ((v.length : Int) < 0) := by omega
    simp [xattr_open, hx2, _lgetxattr, getOrList, getOrListCall, hq, hr0, hrn, hbuf2, hov, hnn]
  have hrd := xattr_pread_in_range
    { name := some (np_strdup name), buf := some v, len := v.length,
      flags := XATTR_FLAGS_GET, setflags := 0 } v v.length 0
    (by show XATTR_FLAGS_GET &&& XATTR_FLAGS_GET ≠ 0; decide) rfl rfl (by omega) (by omega)
    (by omega)
  simp only [Nat.sub_zero, min_self, List.drop_zero, List.take_length] at hrd
  exact ⟨_, _, _, hopen, rfl, rfl, rfl, hrd, rfl, rfl⟩

/-- C4 at name `user.x` and value `"hello"` on an empty store. -/
theorem set_get_round_trip_witness :
    ∃ x p, xattr_create (allocFill 170) ⟨file, none⟩ (some user_x) 5 0
          = .ok { ret := 0, uerror := none, f := ⟨file, some x⟩ } ∧
      xattr_pwrite x hello 5 0 = .ok p ∧ p.ret = 5 ∧
      (xattr_close refSys [] ⟨file, some p.x⟩).ret = 0 ∧
      ((xattr_close refSys [] ⟨file, some p.x⟩).w).getxattr file user_x = some hello ∧
      ∃ o y r, xattr_open refSys (allocFill 85) (xattr_close refSys [] ⟨file, some p.x⟩).w
            ⟨file, none⟩ (some user_x) = .ok o ∧
        o.ret = 0 ∧ o.size = some 5 ∧ o.f.xattr = some y ∧
        xattr_pread y 5 0 = .ok r ∧ r.ret = 5 ∧ r.data = hello :=
  set_get_round_trip (allocFill 170) (allocFill 85) [] file user_x hello 0 (fun _ => 170)
    (fun _ => 85) (by decide) (by decide) rfl rfl rfl rfl rfl rfl (by decide)

/-! ## `_strdup_trim` -/

theorem trimTail_append (l : List Byte) :
    ∀ zs : List Byte, ∃ j, trimTail (l ++ zs) l.length
      = l.rdropWhile isspace ++ (List.replicate j 0 ++ zs) := by
  induction l using List.reverseRecOn with
  | nil => intro zs; exact ⟨0, by simp [trimTail]⟩
  | append_singleton l a ih =>
    intro zs
    have hget : (l ++ [a] ++ zs).getD l.length 0 = a := by
      rw [List.append_assoc, List.getD_append_right _ _ _ _ le_rfl]
      simp
    rw [List.length_append, List.length_singleton, trimTail, hget]
    by_cases ha : isspace a = true
    · rw [if_pos ha, List.rdropWhile_concat_pos _ _ _ ha]
      have hset : (l ++ [a] ++ zs).set l.length 0 = l ++ (0 :: zs) := by
        simp [List.set_append]
      rw [hset]
      obtain ⟨j, hj⟩ := ih (0 :: zs)
      refine ⟨j + 1, ?_⟩
      rw [hj, List.replicate_succ']
      simp
    · rw [if_neg ha, List.rdropWhile_concat_neg _ _ _ ha]
      exact ⟨0, by simp⟩

theorem strlen_append_zeros (t : List Byte) (j : Nat) (ht : 0 ∉ t) :
    (t ++ List.replicate j 0).takeWhile (fun c => c != 0) = t := by
  induction t with
  | nil =>
    cases j with
    | zero => rfl
    | succ j => simp [List.replicate_succ]
  | cons a t ih =>
    have ha : a ≠ 0 := fun h => ht (by simp [h])
    have ht' : 0 ∉ t := fun h => ht (List.mem_cons_of_mem _ h)
    simp [List.takeWhile_cons, ha, ih ht']

theorem rdropWhile_append_rtakeWhile (p : Byte → Bool) (l : List Byte) :
    l.rdropWhile p ++ l.rtakeWhile p = l := by
  unfold List.rdropWhile List.rtakeWhile
  rw [← List.reverse_append, List.takeWhile_append_dropWhile, List.reverse_reverse]

theorem mem_rtakeWhile_imp (p : Byte → Bool) (l : List Byte) (c : Byte)
    (hc : c ∈ l.rtakeWhile p) : p c = true := by
  unfold List.rtakeWhile at hc
  exact List.mem_takeWhile_imp (List.mem_reverse.mp hc)

theorem dropWhile_space_append_zeros (t : List Byte) (j : Nat)
    (hhead : ∀ h : t ≠ [], ¬ isspace (t.head h) = true) :
    (t ++ List.replicate j 0).dropWhile (fun c => c != 0 && isspace c)
      = t ++ List.replicate j 0 := by
  cases t with
  | nil =>
    cases j with
    | zero => rfl
    | succ j => simp [List.replicate_succ]
  | cons a t =>
    have ha := hhead (by simp)
    simp only [List.head_cons] at ha
    simp [List.dropWhile_cons, ha]

/-- C10: for a string `s` (no NUL among its characters) whose `strlen (s) - 1`
fits the `int n`, that is of at most `2 ^ 31` characters, `s` splits as
`pre ++ t ++ post` with `pre` and `post` all whitespace and `t` empty or
starting and ending with a non-whitespace character; `t` is empty exactly
when `s` is empty or all whitespace, and then `_strdup_trim` returns `NULL`;
otherwise it returns a copy of `t`, or leaves through `err_exit` when `strdup`
fails. -/
theorem strdup_trim_spec (dup : Bool) (s : List Byte) (hnul : 0 ∉ s)
    (hlen : s.length ≤ 2 ^ 31) :
    ∃ pre t post, s = pre ++ t ++ post ∧ (∀ c ∈ pre, isspace c = true) ∧
      (∀ c ∈ post, isspace c = true) ∧
      (∀ h : t ≠ [], isspace (t.head h) = false ∧ isspace (t.getLast h) = false) ∧
      (t = [] ↔ ∀ c ∈ s, isspace c = true) ∧
      _strdup_trim dup s
        = if t = [] then .ok none else if dup = true then .ok (some t) else .error .exited := by
  -- the three parts of `s`
  set t' := s.rdropWhile isspace with ht'
  set post := s.rtakeWhile isspace with hpost
  set pre := t'.takeWhile isspace with hpre
  set t := t'.dropWhile isspace with ht
  have hs1 : t' ++ post = s := rdropWhile_append_rtakeWhile isspace s
  have hs2 : pre ++ t = t' := List.takeWhile_append_dropWhile isspace t'
  have hs : s = pre ++ t ++ post := by rw [hs2, hs1]
  have hpre_sp : ∀ c ∈ pre, isspace c = true := fun c hc => List.mem_takeWhile_imp hc
  have hpost_sp : ∀ c ∈ post, isspace c = true := fun c hc => mem_rtakeWhile_imp isspace s c hc
  have hhead : ∀ h : t ≠ [], ¬ isspace (t.head h) = true := by
    intro h
    simpa using List.head_dropWhile_not isspace t' h
  have hlast : ∀ h : t ≠ [], ¬ isspace (t.getLast h) = true := by
    intro h
    have hne : t' ≠ [] := by
      intro h0
      apply h
      rw [ht, h0]
      rfl
    have h1 : t.getLast h = t'.getLast hne :=
      List.IsSuffix.getLast (List.dropWhile_suffix isspace) h
    rw [h1]
    exact List.rdropWhile_last_not isspace s hne
  have ht_nul : 0 ∉ t := by
    intro h0
    apply hnul
    rw [hs]
    simp [h0]
  have hpre_p : ∀ c ∈ pre, (c != 0 && isspace c) = true := by
    intro c hc
    have hc0 : c ≠ 0 := by
      intro h0
      apply hnul
      rw [hs, ← h0]
      simp [hc]
    simp [hc0, hpre_sp c hc]
  have hall : t = [] ↔ ∀ c ∈ s, isspace c = true := by
    constructor
    · intro h0 c hc
      rw [hs, h0] at hc
      simp only [List.append_nil, List.mem_append] at hc
      rcases hc with hc | hc
      · exact hpre_sp c hc
      · exact hpost_sp c hc
    · intro hsp
      by_contra h0
      apply hhead h0
      apply hsp
      rw [hs]
      simp [List.head_mem h0]
  refine ⟨pre, t, post, hs, hpre_sp, hpost_sp, ?_, hall, ?_⟩
  · intro h
    exact ⟨by simpa using hhead h, by simpa using hlast h⟩
  -- the code
  have hstrlen : strlen s = s.length := by
    unfold strlen
    rw [List.takeWhile_eq_self_iff.mpr]
    intro c hc
    have : c ≠ 0 := fun h0 => hnul (h0 ▸ hc)
    simpa using this
  have hn : (toInt32 ((strlen s : Int) - 1) + 1).toNat = s.length := by
    rw [hstrlen]
    unfold toInt32
    omega
  obtain ⟨j, hj⟩ := trimTail_append s []
  rw [List.append_nil, List.append_nil] at hj
  have hs2' : s.rdropWhile isspace = pre ++ t := hs2.symm
  have hdrop : (trimTail s s.length).dropWhile (fun c => c != 0 && isspace c)
      = t ++ List.replicate j 0 := by
    rw [hj, hs2', List.append_assoc, List.dropWhile_append_of_pos hpre_p]
    exact dropWhile_space_append_zeros t j hhead
  have htake := strlen_append_zeros t j ht_nul
  have hlen2 : strlen (t ++ List.replicate j 0) = t.length := by
    unfold strlen
    rw [htake]
  simp only [_strdup_trim, hn, hdrop, hlen2, htake]
  by_cases h0 : t = []
  · simp [h0]
  · have : t.length ≠ 0 := fun h => h0 (List.length_eq_zero.mp h)
    simp [h0, this]

/-- C10 on `" \ta b\n "`: the copy is `"a b"`. -/
theorem strdup_trim_spec_witness :
    (∃ pre t post, [32, 9, 97, 32, 98, 10, 32] = pre ++ t ++ post ∧
      (∀ c ∈ pre, isspace c = true) ∧ (∀ c ∈ post, isspace c = true) ∧
      (∀ h : t ≠ [], isspace (t.head h) = false ∧ isspace (t.getLast h) = false) ∧
      (t = [] ↔ ∀ c ∈ [32, 9, 97, 32, 98, 10, 32], isspace c = true) ∧
      _strdup_trim true [32, 9, 97, 32, 98, 10, 32]
        = if t = [] then .ok none else if true = true then .ok (some t) else .error .exited) ∧
      _strdup_trim true [32, 9, 97, 32, 98, 10, 32] = .ok (some [97, 32, 98]) ∧
      _strdup_trim true [32, 9, 10, 32] = .ok none :=
  ⟨strdup_trim_spec true [32, 9, 97, 32, 98, 10, 32] (by decide) (by norm_num), by decide,
    by decide⟩

end Diod
